import Mathlib

/-!
Verification of the md2docx orchestrator (`convert.py`).

Shallow embedding conventions:
* A filesystem path is modelled as the list of components of its resolved
  absolute POSIX form (`Path := List String`); `Path.resolve()` on the
  already-absolute, symlink-free paths handled here is the identity, and the
  separator `os.sep` is `"/"`.
* The filesystem is a finite state `FS`: the set of regular files and the set
  of directories, each as a list of paths.
* The external engine (pypandoc / Pandoc) is a parameter `Engine`: whether the
  `import pypandoc` succeeds, and which exception (if any) `convert_file`
  raises for a given source path.  Every engine invocation is recorded in a
  call trace, so "the engine was never invoked" and "no retry" are statable.
* Python exceptions are values `PyExc`: the exception class, its message, and
  the explicit `__cause__` attached by `raise ... from ...` (`none` both for a
  plain `raise` and for `raise ... from None`).
-/

namespace Md2Docx

abbrev Path := List String

/-- `str()` of an absolute POSIX path with the given components. -/
def pathString (p : Path) : String :=
  "/" ++ String.intercalate "/" p

/-- Lexicographic `≤` on character sequences (Python's string comparison, by
code point). -/
def charsLe : List Char → List Char → Bool
  | [], _ => true
  | _ :: _, [] => false
  | a :: s, b :: t => if a < b then true else if b < a then false else charsLe s t

theorem charsLe_total : ∀ s t, charsLe s t = true ∨ charsLe t s = true := by
  intro s
  induction s with
  | nil => intro t; left; rfl
  | cons a s ih =>
    intro t
    cases t with
    | nil => right; rfl
    | cons b t =>
      rcases lt_trichotomy a b with h | h | h
      · left; simp [charsLe, h]
      · subst h
        rcases ih t with h' | h'
        · left; simp [charsLe, lt_irrefl, h']
        · right; simp [charsLe, lt_irrefl, h']
      · right; simp [charsLe, h]

theorem charsLe_trans :
    ∀ s t u, charsLe s t = true → charsLe t u = true → charsLe s u = true := by
  intro s
  induction s with
  | nil => intro t u _ _; rfl
  | cons a s ih =>
    intro t u hst htu
    cases t with
    | nil => simp [charsLe] at hst
    | cons b t =>
      cases u with
      | nil => simp [charsLe] at htu
      | cons c u =>
        rcases lt_trichotomy a b with hab | hab | hab
        · rcases lt_trichotomy b c with hbc | hbc | hbc
          · simp [charsLe, lt_trans hab hbc]
          · subst hbc; simp [charsLe, hab]
          · simp [charsLe, lt_asymm hbc, hbc] at htu
        · subst hab
          simp only [charsLe, lt_irrefl, if_neg (lt_irrefl a), if_false] at hst
          rcases lt_trichotomy a c with hac | hac | hac
          · simp [charsLe, hac]
          · subst hac
            simp only [charsLe, if_neg (lt_irrefl a), if_false] at htu ⊢
            exact ih t u hst htu
          · simp [charsLe, lt_asymm hac, hac] at htu
        · simp [charsLe, lt_asymm hab, hab] at hst

/-- Ordering used by Python's `sorted` on `Path` objects: lexicographic
comparison of the absolute path text. -/
def pathLe (p q : Path) : Prop :=
  charsLe (pathString p).toList (pathString q).toList = true

instance : DecidableRel pathLe :=
  fun p q =>
    inferInstanceAs (Decidable (charsLe (pathString p).toList (pathString q).toList = true))

instance : IsTotal Path pathLe :=
  ⟨fun p q => charsLe_total (pathString p).toList (pathString q).toList⟩

instance : IsTrans Path pathLe :=
  ⟨fun _ _ _ h h' => charsLe_trans _ _ _ h h'⟩

/-- `s.endswith(post)` on Python strings / `String.endsWith`. -/
def strEndsWith (s post : String) : Bool :=
  post.toList.isSuffixOf s.toList

/-- `s.lower()` on Python strings (ASCII-faithful). -/
def strToLower (s : String) : String :=
  String.mk (s.toList.map Char.toLower)

/-- `s.replace(os.sep, "_")` with the single-character POSIX separator. -/
def replaceSep (s : String) : String :=
  String.mk (s.toList.map (fun c => if c = '/' then '_' else c))

/-- Index of the last `'.'` in a list of characters (accumulator form). -/
def lastDotIdxAux : List Char → Nat → Option Nat → Option Nat
  | [], _, best => best
  | c :: cs, i, best => lastDotIdxAux cs (i + 1) (if c = '.' then some i else best)

def lastDotIdx (s : List Char) : Option Nat :=
  lastDotIdxAux s 0 none

/-- `pathlib`'s suffix split on a file name: position `i` of the final dot,
valid only when `0 < i < len(name) - 1`. -/
def suffixIdx (name : String) : Option Nat :=
  match lastDotIdx name.toList with
  | some i => if 0 < i ∧ i + 1 < name.toList.length then some i else none
  | none => none

/-- `PurePath.suffix` of a file name. -/
def nameSuffix (name : String) : String :=
  match suffixIdx name with
  | some i => String.mk (name.toList.drop i)
  | none => ""

/-- `PurePath.stem` of a file name (the name with `suffix` removed). -/
def nameStem (name : String) : String :=
  match suffixIdx name with
  | some i => String.mk (name.toList.take i)
  | none => name

/-- `PurePath.name`: the last component. -/
def fileName (p : Path) : String :=
  p.getLastD ""

/-- `PurePath.with_suffix(newSuffix)` (also covers `with_suffix("")`). -/
def withSuffix (p : Path) (newSuffix : String) : Path :=
  p.dropLast ++ [nameStem (fileName p) ++ newSuffix]

/-- Filesystem state: the regular files and the directories present. -/
structure FS where
  files : List Path
  dirs : List Path
deriving DecidableEq, Repr

/-- Python exception classes that `convert.py` can construct or propagate. -/
inductive ExcClass where
  | fileNotFoundError
  | notADirectoryError
  | runtimeError
  | attributeError
deriving DecidableEq, Repr

/-- A raised Python exception: class, message, and the `__cause__` explicitly
attached by `raise ... from ...` (`none` when nothing was attached or the
chain was suppressed with `from None`). -/
structure PyExc where
  cls : ExcClass
  msg : String
  cause : Option ExcClass
deriving DecidableEq, Repr

/-- The external conversion engine (pypandoc): whether the import succeeds and
which exception, if any, `convert_file` raises on a given source path. -/
structure Engine where
  available : Bool
  raises : Path → Option PyExc

def pypandocRequiredMsg : String :=
  "pypandoc is required. Install with: pip install pypandoc_binary"

def mdNotFoundExc (md : Path) : PyExc :=
  ⟨.fileNotFoundError, "Markdown file not found: " ++ pathString md, none⟩

def refNotFoundExc (r : Path) : PyExc :=
  ⟨.fileNotFoundError, "Reference document not found: " ++ pathString r, none⟩

/-- `raise RuntimeError("pypandoc is required. ...") from None`: the cause is
explicitly suppressed. -/
def pypandocMissingExc : PyExc :=
  ⟨.runtimeError, pypandocRequiredMsg, none⟩

/-- `docx_path.parent.mkdir(parents=True, exist_ok=True)`: every prefix of the
destination's parent becomes a directory. -/
def mkdirParents (fs : FS) (dest : Path) : FS :=
  ⟨fs.files, fs.dirs ++ dest.dropLast.inits⟩

/-- The engine writing the destination file. -/
def writeFile (fs : FS) (dest : Path) : FS :=
  ⟨dest :: fs.files, fs.dirs⟩

instance {ε α : Type} [DecidableEq ε] [DecidableEq α] : DecidableEq (Except ε α) :=
  fun x y =>
    match x, y with
    | .error a, .error b =>
      if h : a = b then .isTrue (by rw [h])
      else .isFalse (fun c => h (Except.error.inj c))
    | .error _, .ok _ => .isFalse (fun c => Except.noConfusion c)
    | .ok _, .error _ => .isFalse (fun c => Except.noConfusion c)
    | .ok a, .ok b =>
      if h : a = b then .isTrue (by rw [h])
      else .isFalse (fun c => h (Except.ok.inj c))

/-- Outcome of one `convert_md_to_docx` call: the result (or raised
exception), the filesystem afterwards, and the trace of source paths passed to
the engine. -/
structure ConvOut where
  result : Except PyExc Unit
  fs : FS
  calls : List Path
deriving DecidableEq

/-- The part of `convert_md_to_docx` after the existence checks: make the
output directory, import pypandoc, call `convert_file`.  The engine receives
the source path (the target format, output file, resource path and optional
reference document of the real call are abstracted into `Engine.raises`). -/
def convertStage2 (eng : Engine) (fs : FS) (md docx : Path) : ConvOut :=
  let fs1 := mkdirParents fs docx
  if eng.available then
    match eng.raises md with
    | some e => ⟨.error e, fs1, [md]⟩
    | none => ⟨.ok (), writeFile fs1 docx, [md]⟩
  else ⟨.error pypandocMissingExc, fs1, []⟩

/-- `convert_md_to_docx(md_path, docx_path, reference_doc)` (convert.py
lines 22-78): check the source, check the reference document, make the output
directory, import pypandoc, convert. -/
def convert_md_to_docx (eng : Engine) (fs : FS) (md docx : Path)
    (reference : Option Path) : ConvOut :=
  if md ∈ fs.files then
    match reference with
    | some r =>
      if r ∈ fs.files then convertStage2 eng fs md docx
      else ⟨.error (refNotFoundExc r), fs, []⟩
    | none => convertStage2 eng fs md docx
  else ⟨.error (mdNotFoundExc md), fs, []⟩

/-- Match of `folder.rglob("*.md")` on an entry `p` of the filesystem: `p` is
a proper descendant of `folder` (any depth, files and directories alike) and
its name matches the glob `*.md`, i.e. ends with the literal, case-sensitive
text `".md"`. -/
def rglobPred (folder : Path) (p : Path) : Bool :=
  folder.isPrefixOf p && p != folder && strEndsWith (fileName p) ".md"

/-- Match of the non-recursive branch on an entry `p`: `p` is a direct child
of `folder` (`folder.iterdir()`), is a regular file (`p.is_file()`), and
`p.suffix.lower() == ".md"`. -/
def childPred (fs : FS) (folder : Path) (p : Path) : Bool :=
  p.dropLast == folder && p != folder && decide (p ∈ fs.files)
    && strToLower (nameSuffix (fileName p)) == ".md"

/-- The unsorted match list of `collect_md_files` (before `sorted`). -/
def foundEntries (fs : FS) (folder : Path) (recursive : Bool) : List Path :=
  if recursive then (fs.files ++ fs.dirs).filter (rglobPred folder)
  else (fs.files ++ fs.dirs).filter (childPred fs folder)

def notADirectoryExc (folder : Path) : PyExc :=
  ⟨.notADirectoryError, "Not a directory: " ++ pathString folder, none⟩

/-- `collect_md_files(folder, recursive)` (convert.py lines 81-101). -/
def collect_md_files (fs : FS) (folder : Path) (recursive : Bool) :
    Except PyExc (List Path) :=
  if folder ∈ fs.dirs then
    .ok (List.insertionSort pathLe (foundEntries fs folder recursive))
  else .error (notADirectoryExc folder)

/-- `str()` of a relative path with the given components. -/
def relString (rel : List String) : String :=
  String.intercalate "/" rel

/-- `str(rel.with_suffix("")).replace(os.sep, "_")` (convert.py line 153). -/
def flattenRel (rel : List String) : String :=
  replaceSep (relString (withSuffix rel ""))

def strWithSuffixExc : PyExc :=
  ⟨.attributeError, "str object has no attribute with_suffix", none⟩

/-- Destination derivation of `run_folder` for one input (convert.py lines
146-156).  When `relative_to` fails (the input does not lie under the root),
the code binds `rel` to the `str` returned by `md_path.name`, so the
subsequent `rel.with_suffix("")` raises `AttributeError`. -/
def deriveBatch (folder : Path) (outputDir : Option Path) (md : Path) :
    Except PyExc Path :=
  match outputDir with
  | none => .ok (withSuffix md ".docx")
  | some od =>
    if folder.isPrefixOf md then
      .ok (od ++ [flattenRel (md.drop folder.length) ++ ".docx"])
    else .error strWithSuffixExc

/-- Total form of the destination that `deriveBatch` yields on inputs lying
under the root. -/
def batchDest (folder : Path) (outputDir : Option Path) (md : Path) : Path :=
  match outputDir with
  | none => withSuffix md ".docx"
  | some od => od ++ [flattenRel (md.drop folder.length) ++ ".docx"]

/-- The destination the SPEC describes for batch mode with an output
directory (claim C1), written from the spec's words: the input's path
relative to the root — falling back to the bare file name when the input does
not lie under the root — extension stripped, separators replaced by
underscores, `.docx` appended, joined onto the output directory. -/
def specBatchDest (folder : Path) (od : Path) (md : Path) : Path :=
  od ++ [(if folder.isPrefixOf md then flattenRel (md.drop folder.length)
          else nameStem (fileName md)) ++ ".docx"]

/-- Outcome of a batch run: result (list of destinations, or the propagated
exception), filesystem afterwards, engine call trace. -/
structure RunOut where
  result : Except PyExc (List Path)
  fs : FS
  calls : List Path
deriving DecidableEq

/-- The `for md_path in md_files:` loop of `run_folder`, threading the
filesystem, the accumulated `out_paths`, and the engine call trace. -/
def runLoop (eng : Engine) (folder : Path) (outputDir : Option Path)
    (reference : Option Path) :
    List Path → FS → List Path → List Path → RunOut
  | [], fs, outs, calls => ⟨.ok outs, fs, calls⟩
  | md :: rest, fs, outs, calls =>
    match deriveBatch folder outputDir md with
    | .error e => ⟨.error e, fs, calls⟩
    | .ok docx =>
      let c := convert_md_to_docx eng fs md docx reference
      match c.result with
      | .error e => ⟨.error e, c.fs, calls ++ c.calls⟩
      | .ok _ => runLoop eng folder outputDir reference rest c.fs
          (outs ++ [docx]) (calls ++ c.calls)

/-- `run_folder(folder, output_dir, recursive, reference_doc)` (convert.py
lines 124-161). -/
def run_folder (eng : Engine) (fs : FS) (folder : Path)
    (outputDir : Option Path) (recursive : Bool) (reference : Option Path) :
    RunOut :=
  match collect_md_files fs folder recursive with
  | .error e => ⟨.error e, fs, []⟩
  | .ok mds =>
    if mds.isEmpty then ⟨.ok [], fs, []⟩
    else runLoop eng folder outputDir reference mds fs [] []

/-- Outcome of `run_single_file`: the returned destination (or the raised
exception), filesystem afterwards, engine call trace. -/
structure SingleOut where
  result : Except PyExc Path
  fs : FS
  calls : List Path
deriving DecidableEq

/-- `run_single_file(md_path, output, reference_doc)` (convert.py lines
104-121). -/
def run_single_file (eng : Engine) (fs : FS) (md : Path)
    (output : Option Path) (reference : Option Path) : SingleOut :=
  let target := match output with
    | some o => o
    | none => withSuffix md ".docx"
  let c := convert_md_to_docx eng fs md target reference
  match c.result with
  | .error e => ⟨.error e, c.fs, c.calls⟩
  | .ok _ => ⟨.ok target, c.fs, c.calls⟩

/-- A message printed by the CLI, tagged with its stream. -/
inductive Msg where
  | out (s : String)
  | err (s : String)
deriving DecidableEq, Repr

/-- Outcome of `main()` in folder mode: exit code, printed messages,
filesystem afterwards. -/
structure MainOut where
  exitCode : Nat
  msgs : List Msg
  fs : FS
deriving DecidableEq

/-- The folder-mode branch of `main()` (convert.py lines 228-244): run the
batch, report `No .md files found.` with exit 1 when the list is empty, print
each created path and exit 0 on success, print the handled exception and exit
1 on failure. -/
def main_folder (eng : Engine) (fs : FS) (folder : Path)
    (outputDir : Option Path) (recursive : Bool) (reference : Option Path) :
    MainOut :=
  let r := run_folder eng fs folder outputDir recursive reference
  match r.result with
  | .error e => ⟨1, [.err ("Error: " ++ e.msg)], r.fs⟩
  | .ok [] => ⟨1, [.err "No .md files found."], r.fs⟩
  | .ok (p :: ps) =>
    ⟨0, (p :: ps).map (fun q => Msg.out ("Created: " ++ pathString q)), r.fs⟩

/-! ## Shared lemmas about the embedding -/

/-- The style-reference precondition: the reference document, when given,
exists as a regular file. -/
def refOk (fs : FS) (reference : Option Path) : Prop :=
  ∀ r, reference = some r → r ∈ fs.files

theorem prefixOfBool {p q : Path} : p.isPrefixOf q = true ↔ p <+: q :=
  List.isPrefixOf_iff_prefix

theorem refOk_none (fs : FS) : refOk fs none :=
  fun _ h => nomatch h

theorem refOk_some {fs : FS} {r : Path} (h : r ∈ fs.files) : refOk fs (some r) :=
  fun _ h' => by cases h'; exact h

theorem convert_mdMissing (eng : Engine) (fs : FS) (md docx : Path)
    (reference : Option Path) (h : md ∉ fs.files) :
    convert_md_to_docx eng fs md docx reference =
      ⟨.error (mdNotFoundExc md), fs, []⟩ := by
  simp [convert_md_to_docx, h]

theorem convert_refMissing (eng : Engine) (fs : FS) (md docx r : Path)
    (h1 : md ∈ fs.files) (h2 : r ∉ fs.files) :
    convert_md_to_docx eng fs md docx (some r) =
      ⟨.error (refNotFoundExc r), fs, []⟩ := by
  simp [convert_md_to_docx, h1, h2]

theorem convert_unavailable (eng : Engine) (fs : FS) (md docx : Path)
    (reference : Option Path) (h1 : md ∈ fs.files) (h2 : refOk fs reference)
    (h3 : eng.available = false) :
    convert_md_to_docx eng fs md docx reference =
      ⟨.error pypandocMissingExc, mkdirParents fs docx, []⟩ := by
  cases reference with
  | none => simp [convert_md_to_docx, convertStage2, h1, h3]
  | some r => simp [convert_md_to_docx, convertStage2, h1, h2 r rfl, h3]

theorem convert_engineFail (eng : Engine) (fs : FS) (md docx : Path)
    (reference : Option Path) (e : PyExc) (h1 : md ∈ fs.files)
    (h2 : refOk fs reference) (h3 : eng.available = true)
    (h4 : eng.raises md = some e) :
    convert_md_to_docx eng fs md docx reference =
      ⟨.error e, mkdirParents fs docx, [md]⟩ := by
  cases reference with
  | none => simp [convert_md_to_docx, convertStage2, h1, h3, h4]
  | some r => simp [convert_md_to_docx, convertStage2, h1, h2 r rfl, h3, h4]

theorem convert_success (eng : Engine) (fs : FS) (md docx : Path)
    (reference : Option Path) (h1 : md ∈ fs.files) (h2 : refOk fs reference)
    (h3 : eng.available = true) (h4 : eng.raises md = none) :
    convert_md_to_docx eng fs md docx reference =
      ⟨.ok (), writeFile (mkdirParents fs docx) docx, [md]⟩ := by
  cases reference with
  | none => simp [convert_md_to_docx, convertStage2, h1, h3, h4]
  | some r => simp [convert_md_to_docx, convertStage2, h1, h2 r rfl, h3, h4]

/-- `convert_md_to_docx` never removes a file: the set of files afterwards is
the old set, possibly extended with the destination. -/
theorem convert_files_shape (eng : Engine) (fs : FS) (md docx : Path)
    (reference : Option Path) :
    (convert_md_to_docx eng fs md docx reference).fs.files = fs.files ∨
    (convert_md_to_docx eng fs md docx reference).fs.files = docx :: fs.files := by
  by_cases h1 : md ∈ fs.files
  · cases reference with
    | none =>
      cases h3 : eng.available with
      | false => left; rw [convert_unavailable eng fs md docx none h1 (refOk_none fs) h3]; rfl
      | true =>
        cases h4 : eng.raises md with
        | none => right; rw [convert_success eng fs md docx none h1 (refOk_none fs) h3 h4]; rfl
        | some e => left; rw [convert_engineFail eng fs md docx none e h1 (refOk_none fs) h3 h4]; rfl
    | some r =>
      by_cases h2 : r ∈ fs.files
      · cases h3 : eng.available with
        | false => left; rw [convert_unavailable eng fs md docx (some r) h1 (refOk_some h2) h3]; rfl
        | true =>
          cases h4 : eng.raises md with
          | none => right; rw [convert_success eng fs md docx (some r) h1 (refOk_some h2) h3 h4]; rfl
          | some e => left; rw [convert_engineFail eng fs md docx (some r) e h1 (refOk_some h2) h3 h4]; rfl
      · left; rw [convert_refMissing eng fs md docx r h1 h2]
  · left; rw [convert_mdMissing eng fs md docx reference h1]

theorem convert_files_subset (eng : Engine) (fs : FS) (md docx : Path)
    (reference : Option Path) :
    fs.files ⊆ (convert_md_to_docx eng fs md docx reference).fs.files := by
  rcases convert_files_shape eng fs md docx reference with h | h <;> rw [h]
  · exact fun _ hx => hx
  · exact fun _ hx => List.mem_cons_of_mem _ hx

theorem refOk_mono {fs fs' : FS} {reference : Option Path}
    (hsub : fs.files ⊆ fs'.files) (h : refOk fs reference) : refOk fs' reference :=
  fun r hr => hsub (h r hr)

theorem collect_mem {fs : FS} {folder : Path} {recursive : Bool} {l : List Path}
    (h : collect_md_files fs folder recursive = .ok l) :
    ∀ p, p ∈ l ↔ p ∈ foundEntries fs folder recursive := by
  unfold collect_md_files at h
  split at h
  · injection h with h
    subst h
    exact fun p => List.mem_insertionSort pathLe
  · cases h

theorem foundEntries_under {fs : FS} {folder : Path} {recursive : Bool} {p : Path}
    (h : p ∈ foundEntries fs folder recursive) : folder <+: p := by
  unfold foundEntries at h
  split at h
  · have := (List.mem_filter.mp h).2
    unfold rglobPred at this
    simp only [Bool.and_eq_true] at this
    exact prefixOfBool.mp this.1.1
  · have := (List.mem_filter.mp h).2
    unfold childPred at this
    simp only [Bool.and_eq_true, beq_iff_eq, bne_iff_ne] at this
    have hdrop : p.dropLast = folder := this.1.1.1
    rw [← hdrop]
    exact List.dropLast_prefix p

theorem collect_under {fs : FS} {folder : Path} {recursive : Bool} {l : List Path}
    (h : collect_md_files fs folder recursive = .ok l) :
    ∀ p ∈ l, folder <+: p :=
  fun p hp => foundEntries_under ((collect_mem h p).mp hp)

theorem deriveBatch_under (folder : Path) (outputDir : Option Path) (md : Path)
    (h : folder <+: md) :
    deriveBatch folder outputDir md = .ok (batchDest folder outputDir md) := by
  cases outputDir with
  | none => rfl
  | some od => simp [deriveBatch, batchDest, prefixOfBool.mpr h]

theorem mkdirParents_files (fs : FS) (dest : Path) :
    (mkdirParents fs dest).files = fs.files := rfl

theorem writeFile_files (fs : FS) (dest : Path) :
    (writeFile fs dest).files = dest :: fs.files := rfl

/-- Fail-fast behaviour of the `run_folder` loop: when every file in `pre`
converts and `bad` is the first failing one, the loop raises the engine's
error, the engine is invoked exactly on `pre ++ [bad]` (nothing after `bad` is
attempted), the filesystem only grows, and every destination derived from
`pre` is on disk at the end. -/
theorem runLoop_firstFail (eng : Engine) (folder : Path)
    (outputDir : Option Path) (reference : Option Path) (bad : Path)
    (post : List Path) (e : PyExc) (ha : eng.available = true)
    (hbad : eng.raises bad = some e) :
    ∀ (pre : List Path) (fs : FS) (outs calls : List Path),
      (∀ p ∈ pre ++ bad :: post, folder <+: p) →
      (∀ p ∈ pre, p ∈ fs.files) → bad ∈ fs.files → refOk fs reference →
      (∀ p ∈ pre, eng.raises p = none) →
      (runLoop eng folder outputDir reference (pre ++ bad :: post) fs outs calls).result
          = .error e ∧
      (runLoop eng folder outputDir reference (pre ++ bad :: post) fs outs calls).calls
          = calls ++ (pre ++ [bad]) ∧
      fs.files ⊆
        (runLoop eng folder outputDir reference (pre ++ bad :: post) fs outs calls).fs.files ∧
      (∀ p ∈ pre, batchDest folder outputDir p ∈
        (runLoop eng folder outputDir reference (pre ++ bad :: post) fs outs calls).fs.files) := by
  intro pre
  induction pre with
  | nil =>
    intro fs outs calls hu hf hbf hr ho
    have hub : folder <+: bad := hu bad (by simp)
    simp only [List.nil_append, runLoop,
      deriveBatch_under folder outputDir bad hub,
      convert_engineFail eng fs bad (batchDest folder outputDir bad) reference e hbf hr ha hbad]
    exact ⟨trivial, trivial, fun x hx => hx, fun p hp => nomatch hp⟩
  | cons p pre ih =>
    intro fs outs calls hu hf hbf hr ho
    have hup : folder <+: p := hu p (by simp)
    have hpf : p ∈ fs.files := hf p (by simp)
    have hpr : eng.raises p = none := ho p (by simp)
    simp only [List.cons_append, runLoop, List.append_eq,
      deriveBatch_under folder outputDir p hup,
      convert_success eng fs p (batchDest folder outputDir p) reference hpf hr ha hpr]
    set fs' : FS := writeFile (mkdirParents fs (batchDest folder outputDir p))
      (batchDest folder outputDir p) with hfs'
    have hgrow : fs.files ⊆ fs'.files := by
      rw [hfs', writeFile_files, mkdirParents_files]
      exact fun x hx => List.mem_cons_of_mem _ hx
    have hdest : batchDest folder outputDir p ∈ fs'.files := by
      rw [hfs', writeFile_files, mkdirParents_files]
      exact List.mem_cons_self _ _
    obtain ⟨h1, h2, h3, h4⟩ := ih fs' (outs ++ [batchDest folder outputDir p])
      (calls ++ [p])
      (fun q hq => hu q (by simp at hq ⊢; tauto))
      (fun q hq => hgrow (hf q (by simp [hq])))
      (hgrow hbf) (refOk_mono hgrow hr)
      (fun q hq => ho q (by simp [hq]))
    refine ⟨h1, ?_, fun x hx => h3 (hgrow hx), ?_⟩
    · rw [h2]; simp
    · intro q hq
      rcases List.mem_cons.mp hq with hq | hq
      · subst hq; exact h3 hdest
      · exact h4 q hq

/-- The engine is invoked at most once per `convert_md_to_docx` call (there is
no retry): the call trace is empty or the single source path. -/
theorem convert_calls_shape (eng : Engine) (fs : FS) (md docx : Path)
    (reference : Option Path) :
    (convert_md_to_docx eng fs md docx reference).calls = [] ∨
    (convert_md_to_docx eng fs md docx reference).calls = [md] := by
  by_cases h1 : md ∈ fs.files
  · cases reference with
    | none =>
      cases h3 : eng.available with
      | false => left; rw [convert_unavailable eng fs md docx none h1 (refOk_none fs) h3]
      | true =>
        cases h4 : eng.raises md with
        | none => right; rw [convert_success eng fs md docx none h1 (refOk_none fs) h3 h4]
        | some e => right; rw [convert_engineFail eng fs md docx none e h1 (refOk_none fs) h3 h4]
    | some r =>
      by_cases h2 : r ∈ fs.files
      · cases h3 : eng.available with
        | false => left; rw [convert_unavailable eng fs md docx (some r) h1 (refOk_some h2) h3]
        | true =>
          cases h4 : eng.raises md with
          | none => right; rw [convert_success eng fs md docx (some r) h1 (refOk_some h2) h3 h4]
          | some e => right; rw [convert_engineFail eng fs md docx (some r) e h1 (refOk_some h2) h3 h4]
      · left; rw [convert_refMissing eng fs md docx r h1 h2]
  · left; rw [convert_mdMissing eng fs md docx reference h1]

/-! ## Concrete fixtures used by witnesses and counterexamples -/

/-- An engine that is importable and succeeds on every input. -/
def engStub : Engine := ⟨true, fun _ => none⟩

/-- An engine whose import fails (`pypandoc` not installed). -/
def engDown : Engine := ⟨false, fun _ => none⟩

/-- A conversion failure as the engine reports it. -/
def pandocDiedExc : PyExc := ⟨.runtimeError, "Pandoc died with exitcode 1", none⟩

/-- An engine that fails exactly on `/docs/c.md`. -/
def engBadC : Engine :=
  ⟨true, fun p => if p = ["docs", "c.md"] then some pandocDiedExc else none⟩

/-- Two Markdown files and a style reference. -/
def fsW : FS :=
  ⟨[["docs", "a.md"], ["docs", "b.md"], ["styles", "ref.docx"]],
   [["docs"], ["styles"]]⟩

/-- Five Markdown files `/docs/a.md` .. `/docs/e.md`. -/
def fs5 : FS :=
  ⟨[["docs", "a.md"], ["docs", "b.md"], ["docs", "c.md"], ["docs", "d.md"],
    ["docs", "e.md"]],
   [["docs"]]⟩

/-- An empty root directory. -/
def fsE : FS := ⟨[], [["docs"]]⟩

/-- A root holding one file whose extension matches `.md` only
case-insensitively. -/
def fsA : FS := ⟨[["r", "A.MD"]], [["r"]]⟩

/-- The spec's collision example: `sub1/note.md` and `sub2/note.md` under the
same root, plus an output directory. -/
def fsEx : FS :=
  ⟨[["data", "sub1", "note.md"], ["data", "sub2", "note.md"]],
   [["data"], ["data", "sub1"], ["data", "sub2"], ["out"]]⟩

/-! ## Claim C5 -/

/-- C5: for every non-existent input path, single-file conversion fails with
the missing-input error kind (`FileNotFoundError` naming the missing path),
the filesystem is untouched (no output file, no destination directory), and
the engine is never called. -/
theorem c5_missing_input (eng : Engine) (fs : FS) (md : Path)
    (output reference : Option Path) (h : md ∉ fs.files) :
    run_single_file eng fs md output reference =
      ⟨.error (mdNotFoundExc md), fs, []⟩ := by
  unfold run_single_file
  simp only [convert_mdMissing eng fs md _ reference h]

theorem c5_witness :
    run_single_file engStub fsW ["docs", "missing.md"] none none =
      ⟨.error (mdNotFoundExc ["docs", "missing.md"]), fsW, []⟩ :=
  c5_missing_input engStub fsW ["docs", "missing.md"] none none (by decide)

/-! ## Claim C10 -/

/-- C10: when the source (and reference, if any) exist but the engine is
unavailable, `convert_md_to_docx` still creates the destination's parent
directory chain before raising the engine-unavailable `RuntimeError`; the set
of files is unchanged (no output is written) and the engine is never
called. -/
theorem c10_mkdir_before_unavailable (eng : Engine) (fs : FS) (md docx : Path)
    (reference : Option Path) (h1 : md ∈ fs.files) (h2 : refOk fs reference)
    (h3 : eng.available = false) (h4 : docx ∉ fs.files) :
    (convert_md_to_docx eng fs md docx reference).result = .error pypandocMissingExc ∧
    docx.dropLast ∈ (convert_md_to_docx eng fs md docx reference).fs.dirs ∧
    (∀ q, q <+: docx.dropLast →
      q ∈ (convert_md_to_docx eng fs md docx reference).fs.dirs) ∧
    (convert_md_to_docx eng fs md docx reference).fs.files = fs.files ∧
    docx ∉ (convert_md_to_docx eng fs md docx reference).fs.files ∧
    (convert_md_to_docx eng fs md docx reference).calls = [] := by
  rw [convert_unavailable eng fs md docx reference h1 h2 h3]
  have hq : ∀ q, q <+: docx.dropLast → q ∈ (mkdirParents fs docx).dirs := by
    intro q hq
    show q ∈ fs.dirs ++ docx.dropLast.inits
    exact List.mem_append_right _ ((List.mem_inits q _).mpr hq)
  exact ⟨rfl, hq _ (List.prefix_refl _), hq, rfl, h4, rfl⟩

theorem c10_witness :
    (convert_md_to_docx engDown fsW ["docs", "a.md"] ["out", "sub", "a.docx"] none).result
        = .error pypandocMissingExc ∧
    ["out", "sub"] ∈ (convert_md_to_docx engDown fsW ["docs", "a.md"] ["out", "sub", "a.docx"] none).fs.dirs ∧
    (∀ q, q <+: (["out", "sub", "a.docx"] : Path).dropLast →
      q ∈ (convert_md_to_docx engDown fsW ["docs", "a.md"] ["out", "sub", "a.docx"] none).fs.dirs) ∧
    (convert_md_to_docx engDown fsW ["docs", "a.md"] ["out", "sub", "a.docx"] none).fs.files = fsW.files ∧
    ["out", "sub", "a.docx"] ∉ (convert_md_to_docx engDown fsW ["docs", "a.md"] ["out", "sub", "a.docx"] none).fs.files ∧
    (convert_md_to_docx engDown fsW ["docs", "a.md"] ["out", "sub", "a.docx"] none).calls = [] :=
  c10_mkdir_before_unavailable engDown fsW ["docs", "a.md"] ["out", "sub", "a.docx"]
    none (by decide) (refOk_none fsW) rfl (by decide)

/-! ## Claim C4 -/

/-- Claim C4 as stated: whenever the engine is unavailable or raises a
conversion failure, the conversion raises a single generic `RuntimeError`
that WRAPS the underlying cause (a non-`none` `__cause__`). -/
def c4Stated : Prop :=
  ∀ (eng : Engine) (fs : FS) (md docx : Path) (reference : Option Path),
    md ∈ fs.files → refOk fs reference →
    (eng.available = false ∨ (∃ e, eng.raises md = some e)) →
    ∃ m c, (convert_md_to_docx eng fs md docx reference).result =
      .error ⟨.runtimeError, m, some c⟩

/-- C4 counterexample: with the engine unavailable, the `RuntimeError` is
raised with `from None` — its cause is suppressed, not wrapped. -/
theorem c4_counterexample : ¬ c4Stated := by
  intro h
  obtain ⟨m, c, hc⟩ := h engDown fsW ["docs", "a.md"] ["docs", "a.docx"] none
    (by decide) (refOk_none fsW) (Or.inl rfl)
  rw [convert_unavailable engDown fsW ["docs", "a.md"] ["docs", "a.docx"] none
    (by decide) (refOk_none fsW) rfl] at hc
  have := Except.error.inj hc
  simp [pypandocMissingExc] at this

/-- C4 amended: when the engine is unavailable the call raises
`RuntimeError("pypandoc is required. ...")` with the cause suppressed
(`raise ... from None`); when the engine itself raises, that exception
propagates unchanged (no re-wrapping); the engine is invoked at most once, so
no retry is attempted. -/
theorem c4_no_wrap_no_retry (eng : Engine) (fs : FS) (md docx : Path)
    (reference : Option Path) (h1 : md ∈ fs.files) (h2 : refOk fs reference) :
    (eng.available = false →
      (convert_md_to_docx eng fs md docx reference).result = .error pypandocMissingExc ∧
      pypandocMissingExc.cls = .runtimeError ∧ pypandocMissingExc.cause = none ∧
      (convert_md_to_docx eng fs md docx reference).calls = []) ∧
    (∀ e, eng.available = true → eng.raises md = some e →
      (convert_md_to_docx eng fs md docx reference).result = .error e ∧
      (convert_md_to_docx eng fs md docx reference).calls = [md]) ∧
    (convert_md_to_docx eng fs md docx reference).calls.length ≤ 1 := by
  refine ⟨?_, ?_, ?_⟩
  · intro h3
    rw [convert_unavailable eng fs md docx reference h1 h2 h3]
    exact ⟨rfl, rfl, rfl, rfl⟩
  · intro e h3 h4
    rw [convert_engineFail eng fs md docx reference e h1 h2 h3 h4]
    exact ⟨rfl, rfl⟩
  · rcases convert_calls_shape eng fs md docx reference with h | h <;> simp [h]

theorem c4_witness :
    ((convert_md_to_docx engDown fsW ["docs", "a.md"] ["docs", "a.docx"] none).result
          = .error pypandocMissingExc ∧
      pypandocMissingExc.cls = .runtimeError ∧ pypandocMissingExc.cause = none ∧
      (convert_md_to_docx engDown fsW ["docs", "a.md"] ["docs", "a.docx"] none).calls = []) ∧
    (convert_md_to_docx engDown fsW ["docs", "a.md"] ["docs", "a.docx"] none).calls.length ≤ 1 :=
  have h := c4_no_wrap_no_retry engDown fsW ["docs", "a.md"] ["docs", "a.docx"] none
    (by decide) (refOk_none fsW)
  ⟨h.1 rfl, h.2.2⟩

/-! ## Claim C9 -/

/-- C9: in single-file mode, an explicit output path is used verbatim as the
destination, and otherwise the destination is the input path with its
extension replaced by `.docx` in the input's own directory; the derivation
never depends on file contents (the embedding carries none). -/
theorem c9_single_dest (eng : Engine) (fs : FS) (md : Path)
    (reference : Option Path) (h1 : md ∈ fs.files) (h2 : refOk fs reference)
    (h3 : eng.available = true) (h4 : eng.raises md = none) :
    (∀ o : Path, (run_single_file eng fs md (some o) reference).result = .ok o) ∧
    (run_single_file eng fs md none reference).result =
      .ok (md.dropLast ++ [nameStem (fileName md) ++ ".docx"]) := by
  constructor
  · intro o
    unfold run_single_file
    simp only [convert_success eng fs md o reference h1 h2 h3 h4]
  · unfold run_single_file
    simp only [convert_success eng fs md (withSuffix md ".docx") reference h1 h2 h3 h4]
    rfl

theorem c9_witness :
    (run_single_file engStub fsW ["docs", "a.md"] (some ["w", "out.docx"])
        (some ["styles", "ref.docx"])).result = .ok ["w", "out.docx"] ∧
    (run_single_file engStub fsW ["docs", "a.md"] none
        (some ["styles", "ref.docx"])).result = .ok ["docs", "a.docx"] :=
  have h := c9_single_dest engStub fsW ["docs", "a.md"] (some ["styles", "ref.docx"])
    (by decide) (refOk_some (by decide)) rfl rfl
  ⟨h.1 ["w", "out.docx"], h.2⟩

/-! ## Claim C6 -/

/-- C6: a batch run whose style-reference path does not exist aborts on the
first discovered file with the missing-input error kind
(`FileNotFoundError` naming the reference), before any engine invocation and
before any filesystem change. -/
theorem c6_batch_ref_missing (eng : Engine) (fs : FS) (folder : Path)
    (outputDir : Option Path) (recursive : Bool) (r md : Path)
    (rest : List Path) (hr : r ∉ fs.files)
    (hcol : collect_md_files fs folder recursive = .ok (md :: rest))
    (hmd : md ∈ fs.files) :
    run_folder eng fs folder outputDir recursive (some r) =
      ⟨.error (refNotFoundExc r), fs, []⟩ := by
  have hu : folder <+: md := collect_under hcol md (by simp)
  unfold run_folder
  rw [hcol]
  simp only [List.isEmpty_cons, Bool.false_eq_true, if_false, runLoop,
    deriveBatch_under folder outputDir md hu,
    convert_refMissing eng fs md (batchDest folder outputDir md) r hmd hr,
    List.nil_append]

theorem c6_witness :
    run_folder engStub fsW ["docs"] none false (some ["styles", "missing.docx"]) =
      ⟨.error (refNotFoundExc ["styles", "missing.docx"]), fsW, []⟩ :=
  c6_batch_ref_missing engStub fsW ["docs"] none false
    ["styles", "missing.docx"] ["docs", "a.md"] [["docs", "b.md"]]
    (by decide) (by decide) (by decide)

/-! ## Claim C7 -/

/-- C7: every list returned by discovery is sorted lexicographically by the
text of the resolved absolute path, and discovery is a deterministic function
of the filesystem state, so equal states yield the same ordered list. -/
theorem c7_sorted_deterministic :
    (∀ (fs : FS) (folder : Path) (recursive : Bool) (l : List Path),
      collect_md_files fs folder recursive = .ok l → l.Sorted pathLe) ∧
    (∀ (fs1 fs2 : FS) (folder : Path) (recursive : Bool),
      fs1.files = fs2.files → fs1.dirs = fs2.dirs →
      collect_md_files fs1 folder recursive = collect_md_files fs2 folder recursive) := by
  constructor
  · intro fs folder recursive l h
    unfold collect_md_files at h
    split at h
    · injection h with h
      subst h
      exact List.sorted_insertionSort pathLe _
    · cases h
  · intro fs1 fs2 folder recursive hf hd
    have h : fs1 = fs2 := by
      cases fs1; cases fs2; simp_all
    rw [h]

theorem c7_witness :
    List.Sorted pathLe [["docs", "a.md"], ["docs", "b.md"]] ∧
    collect_md_files fsW ["docs"] false = collect_md_files fsW ["docs"] false :=
  ⟨c7_sorted_deterministic.1 fsW ["docs"] false _ (by decide),
   c7_sorted_deterministic.2 fsW fsW ["docs"] false rfl rfl⟩

/-! ## Claim C3 -/

/-- Claim C3 as stated: in both modes discovery returns exactly the FILES
whose extension matches `.md` case-insensitively (at any depth when
recursive, direct children otherwise). -/
def c3Stated : Prop :=
  ∀ (fs : FS) (folder : Path) (l : List Path),
    folder ∈ fs.dirs →
    (collect_md_files fs folder true = .ok l →
      ∀ p, p ∈ l ↔ p ∈ fs.files ∧ folder <+: p ∧ p ≠ folder ∧
        strToLower (nameSuffix (fileName p)) = ".md") ∧
    (collect_md_files fs folder false = .ok l →
      ∀ p, p ∈ l ↔ p ∈ fs.files ∧ p.dropLast = folder ∧ p ≠ folder ∧
        strToLower (nameSuffix (fileName p)) = ".md")

/-- C3 counterexample: `/r/A.MD` matches `.md` case-insensitively, yet
recursive discovery (built on the case-sensitive glob `rglob("*.md")`)
returns the empty list for a root containing exactly that file. -/
theorem c3_counterexample : ¬ c3Stated := by
  intro h
  have h1 := ((h fsA ["r"] [] (by decide)).1 (by decide) ["r", "A.MD"]).mpr (by decide)
  exact absurd h1 (by decide)

/-- C3 amended: recursive discovery returns exactly the filesystem entries
(files or directories) strictly under the root whose NAME ends with the
literal, case-sensitive text `.md`; non-recursive discovery returns exactly
the regular files that are direct children of the root whose extension,
lowercased, is `.md`. -/
theorem c3_discovery_characterization (fs : FS) (folder : Path)
    (_hdir : folder ∈ fs.dirs) :
    (∀ l, collect_md_files fs folder true = .ok l →
      ∀ p, p ∈ l ↔ (p ∈ fs.files ∨ p ∈ fs.dirs) ∧ folder <+: p ∧ p ≠ folder ∧
        strEndsWith (fileName p) ".md" = true) ∧
    (∀ l, collect_md_files fs folder false = .ok l →
      ∀ p, p ∈ l ↔ p ∈ fs.files ∧ p.dropLast = folder ∧ p ≠ folder ∧
        strToLower (nameSuffix (fileName p)) = ".md") := by
  constructor
  · intro l h p
    rw [collect_mem h p]
    simp [foundEntries, rglobPred, List.mem_filter, prefixOfBool, and_assoc]
    tauto
  · intro l h p
    rw [collect_mem h p]
    simp [foundEntries, childPred, List.mem_filter, and_assoc]
    tauto

theorem c3_witness :
    (["r", "A.MD"] : Path) ∈ ([["r", "A.MD"]] : List Path) ↔
      ["r", "A.MD"] ∈ fsA.files ∧ (["r", "A.MD"] : Path).dropLast = ["r"] ∧
      (["r", "A.MD"] : Path) ≠ ["r"] ∧
      strToLower (nameSuffix (fileName ["r", "A.MD"])) = ".md" :=
  (c3_discovery_characterization fsA ["r"] (by decide)).2 [["r", "A.MD"]]
    (by decide) ["r", "A.MD"]

/-! ## Claim C8 -/

/-- C8: when discovery matches nothing, it and `run_folder` return an empty
list without raising; the CLI then prints the informational
`No .md files found.` line (to stderr) and exits 1.  A non-empty fully
successful run exits 0. -/
theorem c8_empty_and_success :
    (∀ (eng : Engine) (fs : FS) (folder : Path) (outputDir : Option Path)
        (recursive : Bool) (reference : Option Path),
      folder ∈ fs.dirs → foundEntries fs folder recursive = [] →
      collect_md_files fs folder recursive = .ok [] ∧
      run_folder eng fs folder outputDir recursive reference = ⟨.ok [], fs, []⟩ ∧
      main_folder eng fs folder outputDir recursive reference =
        ⟨1, [.err "No .md files found."], fs⟩) ∧
    (∀ (eng : Engine) (fs : FS) (folder : Path) (outputDir : Option Path)
        (recursive : Bool) (reference : Option Path) (p : Path) (ps : List Path),
      (run_folder eng fs folder outputDir recursive reference).result = .ok (p :: ps) →
      (main_folder eng fs folder outputDir recursive reference).exitCode = 0) := by
  constructor
  · intro eng fs folder outputDir recursive reference hdir hnone
    have hcol : collect_md_files fs folder recursive = .ok [] := by
      unfold collect_md_files
      rw [if_pos hdir, hnone]
      rfl
    have hrun : run_folder eng fs folder outputDir recursive reference = ⟨.ok [], fs, []⟩ := by
      unfold run_folder
      rw [hcol]
      rfl
    refine ⟨hcol, hrun, ?_⟩
    unfold main_folder
    rw [hrun]
  · intro eng fs folder outputDir recursive reference p ps h
    unfold main_folder
    simp only [h]

theorem c8_witness :
    (collect_md_files fsE ["docs"] false = .ok [] ∧
      run_folder engStub fsE ["docs"] none false none = ⟨.ok [], fsE, []⟩ ∧
      main_folder engStub fsE ["docs"] none false none =
        ⟨1, [.err "No .md files found."], fsE⟩) ∧
    (main_folder engStub fsW ["docs"] none false none).exitCode = 0 :=
  ⟨c8_empty_and_success.1 engStub fsE ["docs"] none false none (by decide) (by decide),
   c8_empty_and_success.2 engStub fsW ["docs"] none false none
     ["docs", "a.docx"] [["docs", "b.docx"]] (by decide)⟩

/-! ## Claim C1 -/

/-- C1: for every discovered input, the batch destination with an output
directory set is exactly what the spec describes (`specBatchDest`: relative
path under the root — bare name if not under the root — extension stripped,
separators flattened to underscores, `.docx` appended, joined to the output
directory); on the spec's example, `sub1/note.md` and `sub2/note.md` derive
the distinct outputs `sub1_note.docx` and `sub2_note.docx`, both on disk
after the run. -/
theorem c1_batch_dest :
    (∀ (fs : FS) (folder : Path) (recursive : Bool) (l : List Path)
        (od : Path) (md : Path),
      collect_md_files fs folder recursive = .ok l → md ∈ l →
      deriveBatch folder (some od) md = .ok (specBatchDest folder od md)) ∧
    (run_folder engStub fsEx ["data"] (some ["out"]) true none).result =
      .ok [["out", "sub1_note.docx"], ["out", "sub2_note.docx"]] ∧
    ["out", "sub1_note.docx"] ∈ (run_folder engStub fsEx ["data"] (some ["out"]) true none).fs.files ∧
    ["out", "sub2_note.docx"] ∈ (run_folder engStub fsEx ["data"] (some ["out"]) true none).fs.files ∧
    (["out", "sub1_note.docx"] : Path) ≠ ["out", "sub2_note.docx"] := by
  refine ⟨?_, by decide, by decide, by decide, by decide⟩
  intro fs folder recursive l od md hcol hmem
  have hu : folder <+: md := collect_under hcol md hmem
  rw [deriveBatch_under folder (some od) md hu]
  unfold specBatchDest batchDest
  rw [if_pos (prefixOfBool.mpr hu)]

theorem c1_witness :
    deriveBatch ["data"] (some ["out"]) ["data", "sub1", "note.md"] =
      .ok ["out", "sub1_note.docx"] :=
  c1_batch_dest.1 fsEx ["data"] true
    [["data", "sub1", "note.md"], ["data", "sub2", "note.md"]] ["out"]
    ["data", "sub1", "note.md"] (by decide) (by decide)

/-! ## Claim C2 -/

/-- C2: a batch run processes discovered files in order and stops at the
first failing conversion: the run propagates that error (no partial result
list), the engine was invoked exactly on the files up to and including the
failing one, and the destinations of the earlier files are on disk. -/
theorem c2_fail_fast (eng : Engine) (fs : FS) (folder : Path)
    (outputDir : Option Path) (recursive : Bool) (reference : Option Path)
    (pre : List Path) (bad : Path) (post : List Path) (e : PyExc)
    (hcol : collect_md_files fs folder recursive = .ok (pre ++ bad :: post))
    (ha : eng.available = true) (hr : refOk fs reference)
    (hf : ∀ p ∈ pre, p ∈ fs.files) (hbf : bad ∈ fs.files)
    (hok : ∀ p ∈ pre, eng.raises p = none) (hbad : eng.raises bad = some e) :
    (run_folder eng fs folder outputDir recursive reference).result = .error e ∧
    (run_folder eng fs folder outputDir recursive reference).calls = pre ++ [bad] ∧
    (∀ p ∈ pre, batchDest folder outputDir p ∈
      (run_folder eng fs folder outputDir recursive reference).fs.files) := by
  have hu : ∀ p ∈ pre ++ bad :: post, folder <+: p := collect_under hcol
  obtain ⟨h1, h2, h3, h4⟩ := runLoop_firstFail eng folder outputDir reference bad
    post e ha hbad pre fs [] [] hu hf hbf hr hok
  have hrun : run_folder eng fs folder outputDir recursive reference =
      runLoop eng folder outputDir reference (pre ++ bad :: post) fs [] [] := by
    unfold run_folder
    rw [hcol]
    have hne : (pre ++ bad :: post).isEmpty = false := by simp
    simp only [hne, Bool.false_eq_true, if_false]
  rw [hrun]
  rw [List.nil_append] at h2
  exact ⟨h1, h2, h4⟩

theorem c2_witness :
    (run_folder engBadC fs5 ["docs"] none false none).result = .error pandocDiedExc ∧
    (run_folder engBadC fs5 ["docs"] none false none).calls =
      [["docs", "a.md"], ["docs", "b.md"], ["docs", "c.md"]] ∧
    ["docs", "a.docx"] ∈ (run_folder engBadC fs5 ["docs"] none false none).fs.files ∧
    ["docs", "b.docx"] ∈ (run_folder engBadC fs5 ["docs"] none false none).fs.files :=
  have h := c2_fail_fast engBadC fs5 ["docs"] none false none
    [["docs", "a.md"], ["docs", "b.md"]] ["docs", "c.md"]
    [["docs", "d.md"], ["docs", "e.md"]] pandocDiedExc
    (by decide) rfl (refOk_none fs5) (by decide) (by decide) (by decide) (by decide)
  ⟨h.1, h.2.1, h.2.2 ["docs", "a.md"] (by decide), h.2.2 ["docs", "b.md"] (by decide)⟩

end Md2Docx
